import Mathlib

/-!
Verification development for the XDCC MCP download orchestrator.

The definitions below are a shallow embedding of
`src/mcp-server/tools/initiateDownloadTool/initiateDownloadLogic.ts` and
`src/mcp-server/tools/getDownloadStatusTool` (the `getDownloadStatusLogic`
half of its file). JavaScript `Set<number>` becomes `Finset ℕ`, the two
process-wide `Map`s become association lists, thrown `McpError`s become
`Except`, and the asynchronous callbacks registered on a transfer become an
explicit event type folded into the job record.
-/

deriving instance DecidableEq for Except

namespace XdccMcp

/-- Whitespace as recognised by `String.prototype.trim` (the ASCII cases). -/
def isWs (c : Char) : Bool :=
  c = ' ' || c = '\t' || c = '\n' || c = '\r'

/-- Model of `String.prototype.trim` on the character list. -/
def trimList (cs : List Char) : List Char :=
  ((cs.dropWhile isWs).reverse.dropWhile isWs).reverse

/-- Model of `String.prototype.split(sep)` for a one-character separator:
`"".split(sep)` is `[""]`, and each separator occurrence opens a new field. -/
def splitOnChar (sep : Char) : List Char → List (List Char)
  | [] => [[]]
  | c :: cs =>
    let rest := splitOnChar sep cs
    if c = sep then [] :: rest
    else
      match rest with
      | r :: rs => (c :: r) :: rs
      | [] => [[c]]

/-- Maximal leading run of decimal digits of a character list. -/
def digitsPrefix : List Char → List Char
  | [] => []
  | c :: cs => if c.isDigit then c :: digitsPrefix cs else []

/-- Value of a digit list, most significant digit first. -/
def digitsToNat (ds : List Char) : Nat :=
  ds.foldl (fun acc c => 10 * acc + (c.toNat - '0'.toNat)) 0

/-- Model of JavaScript `parseInt(s, 10)` restricted to the strings this code
feeds it: already trimmed, and never containing a minus sign (single-number
tokens with a dash take the range branch, and range endpoints come from
splitting on the dash). `parseInt` skips one optional leading plus sign, then
reads the maximal leading run of decimal digits; it yields `NaN` (here:
`none`) when that run is empty. -/
def parseIntPrefix (s : List Char) : Option Nat :=
  let body :=
    match s with
    | '+' :: rest => rest
    | other => other
  match digitsPrefix body with
  | [] => none
  | ds => some (digitsToNat ds)

/-- One token of the comma-separated pack list: the `flatMap` body of
`expandPacks`. A token containing a dash is split into `start-end` (only the
first two fields are read, as the destructuring does); a missing or
unparseable endpoint, or `start > end`, drops the token. A dash-free token
contributes its `parseInt` value, or nothing when that is `NaN`. -/
def expandToken (part : List Char) : List Nat :=
  let trimmed := trimList part
  if trimmed.contains '-' then
    let parts := (splitOnChar '-' trimmed).map trimList
    match parseIntPrefix (parts.getD 0 []), parseIntPrefix (parts.getD 1 []) with
    | some s, some e =>
      if s > e then [] else (List.range (e - s + 1)).map (fun i => s + i)
    | _, _ => []
  else
    match parseIntPrefix trimmed with
    | some n => [n]
    | none => []

/-- `expandPacks` from `initiateDownloadLogic.ts`: split the pack string on
commas, expand every token, and deduplicate the result into a set. -/
def expandPacks (packsString : String) : Finset Nat :=
  (((splitOnChar ',' packsString.data).map expandToken).flatten).toFinset

/-- `String.prototype.trim` at the string level (the sanitisation step of
`initiateDownload`). -/
def strTrim (s : String) : String :=
  (trimList s.data).asString

/-- `DownloadJobStatus` from `initiateDownloadLogic.ts`. -/
inductive DownloadJobStatus where
  | in_progress
  | completed
  | failed
  | partially_completed
deriving DecidableEq, Repr

/-- An entry of a job's `errors` array: `{ message, stack? }`. -/
structure ErrorEntry where
  message : String
  stack : Option String
deriving DecidableEq, Repr

/-- `DownloadJob` from `initiateDownloadLogic.ts`. -/
structure DownloadJob where
  id : String
  host : String
  port : Nat
  channel : String
  bot : String
  requestedPacks : Finset Nat
  completedPacks : Finset Nat
  failedPacks : Finset Nat
  errors : List ErrorEntry
  startTime : String
  endTime : Option String
  status : DownloadJobStatus
deriving DecidableEq

instance : Inhabited DownloadJob :=
  ⟨⟨"", "", 0, "", "", ∅, ∅, ∅, [], "", none, DownloadJobStatus.in_progress⟩⟩

/-- `InitiateDownloadToolInput` after zod validation applied its defaults. -/
structure InitiateDownloadToolInput where
  host : String
  port : Nat
  channel : String
  bot : String
  packs : String
  download_path : String
  nickname : String
deriving DecidableEq, Repr

/-- The error-code values of `types-global/errors.ts` that the sources name at
their throw sites (the module itself sits outside the provided tree). -/
inductive BaseErrorCode where
  | VALIDATION_ERROR
  | INTERNAL_ERROR
deriving DecidableEq, Repr

/-- `McpError` as thrown by `initiateDownload`: an error code plus message. -/
structure McpError where
  code : BaseErrorCode
  message : String
deriving DecidableEq, Repr

/-- `InitiateDownloadToolResponse` from `initiateDownloadLogic.ts`. -/
structure InitiateDownloadToolResponse where
  job_id : String
  message : String
  status : DownloadJobStatus
deriving DecidableEq, Repr

/-- The configuration an XDCC connection was created with
(`new XDCC.default({host, port, nickname, path})`). -/
structure XdccConnection where
  host : String
  port : Nat
  nickname : String
  path : String
deriving DecidableEq, Repr

/-- The process-wide mutable state touched by `getXdccConnection`: the
`ircConnections` map plus the set of directories existing on disk (the
`fs.existsSync`/`fs.mkdirSync` pair). -/
structure PoolState where
  ircConnections : List (String × XdccConnection)
  dirs : List String
deriving DecidableEq, Repr

/-- The pool key: exactly `host + ":" + port`. -/
def connectionKey (host : String) (port : Nat) : String :=
  host ++ ":" ++ Nat.repr port

/-- `getXdccConnection` from `initiateDownloadLogic.ts`: reuse the pooled
connection for `host:port` if present; otherwise create the download
directory when it does not exist yet and open a fresh connection configured
with the given nickname and path. -/
def getXdccConnection (st : PoolState) (host : String) (port : Nat)
    (nickname downloadPath : String) : XdccConnection × PoolState :=
  let key := connectionKey host port
  match st.ircConnections.lookup key with
  | some conn => (conn, st)
  | none =>
    let dirs := if downloadPath ∈ st.dirs then st.dirs else downloadPath :: st.dirs
    let conn : XdccConnection := ⟨host, port, nickname, downloadPath⟩
    (conn, ⟨(key, conn) :: st.ircConnections, dirs⟩)

/-- Number of pooled connections stored under a given key. -/
def poolCount (key : String) (st : PoolState) : Nat :=
  (st.ircConnections.filter (fun kv => kv.1 == key)).length

/-- The asynchronous happenings that mutate a job record after
`initiateDownload` has returned: the three `xdccJob` events wired in the
`setTimeout` body (`downloading`, `downloaded`, `error`) plus the rejection
of `download()` itself (the `.catch` handler). -/
inductive XdccEvent where
  | downloading (received percentage eta : Nat)
  | downloaded (success : List Nat)
  | errored (message : String) (stack : Option String)
  | startFailed (message : String) (stack : Option String)
deriving DecidableEq

/-- The `xdccJob.on('downloaded')` handler: add every entry of the bot's
session-wide `success` list to `completedPacks`, then mark the job completed
when the completed count reaches the requested count. -/
def onDownloaded (success : List Nat) (job : DownloadJob) : DownloadJob :=
  let completed := success.foldl (fun s n => insert n s) job.completedPacks
  let job' := { job with completedPacks := completed }
  if completed.card = job.requestedPacks.card then
    { job' with status := DownloadJobStatus.completed }
  else job'

/-- The `xdccJob.on('error')` handler: push the error onto the job's log and
mark the job failed. -/
def onXdccError (message : String) (stack : Option String)
    (job : DownloadJob) : DownloadJob :=
  { job with
      errors := job.errors ++ [⟨message, stack⟩]
      status := DownloadJobStatus.failed }

/-- The `download().catch` handler: the same record mutation as the error
event — push the causing error and mark the job failed. -/
def onStartFailed (message : String) (stack : Option String)
    (job : DownloadJob) : DownloadJob :=
  { job with
      errors := job.errors ++ [⟨message, stack⟩]
      status := DownloadJobStatus.failed }

/-- Fold one delivered event into a job record (`downloading` only logs). -/
def applyEvent (job : DownloadJob) (e : XdccEvent) : DownloadJob :=
  match e with
  | XdccEvent.downloading _ _ _ => job
  | XdccEvent.downloaded success => onDownloaded success job
  | XdccEvent.errored m st => onXdccError m st job
  | XdccEvent.startFailed m st => onStartFailed m st job

/-- Fold a sequence of delivered events into a job record. -/
def runEvents (job : DownloadJob) (es : List XdccEvent) : DownloadJob :=
  es.foldl applyEvent job

/-- Everything `initiateDownload` has produced when it returns: its response,
the job record it registered (still aliased by the event handlers), the
updated `downloadJobs` map and the updated pool state. -/
structure InitiateOutcome where
  response : InitiateDownloadToolResponse
  job : DownloadJob
  downloadJobs : List (String × DownloadJob)
  pool : PoolState
deriving DecidableEq

/-- `initiateDownload` from `initiateDownloadLogic.ts`. The fresh job id and
the creation timestamp are passed in (modelling `crypto.randomBytes` and
`new Date()`); the thrown `McpError` becomes the `Except.error` case. The
synchronous phase sanitises the inputs, expands the packs, rejects an empty
expansion, registers the job, acquires the pooled connection and returns;
the asynchronous `setTimeout` body is modelled separately by `applyEvent`. -/
def initiateDownload (jobId startTime : String)
    (downloadJobs : List (String × DownloadJob)) (pool : PoolState)
    (params : InitiateDownloadToolInput) :
    Except McpError InitiateOutcome :=
  let host := strTrim params.host
  let channel := strTrim params.channel
  let bot := strTrim params.bot
  let packs := strTrim params.packs
  let download_path := strTrim params.download_path
  let nickname := strTrim params.nickname
  let requestedPacks := expandPacks packs
  if requestedPacks.card = 0 then
    Except.error ⟨BaseErrorCode.VALIDATION_ERROR, "No valid pack numbers provided"⟩
  else
    let response : InitiateDownloadToolResponse :=
      { job_id := jobId
        message := "Download started for " ++ Nat.repr requestedPacks.card ++ " file(s)"
        status := DownloadJobStatus.in_progress }
    let job : DownloadJob :=
      { id := jobId
        host := host
        port := params.port
        channel := channel
        bot := bot
        requestedPacks := requestedPacks
        completedPacks := ∅
        failedPacks := ∅
        errors := []
        startTime := startTime
        endTime := none
        status := DownloadJobStatus.in_progress }
    let pool' := (getXdccConnection pool host params.port nickname download_path).2
    Except.ok ⟨response, job, (jobId, job) :: downloadJobs, pool'⟩

/-- `GetDownloadStatusToolResponse` from the status tool's logic module. -/
structure GetDownloadStatusToolResponse where
  job_id : String
  status : DownloadJobStatus
  completedPacks : List Nat
  failedPacks : List Nat
  progress : String
  message : String
  errors : List ErrorEntry
  startTime : Option String
  endTime : Option String
deriving DecidableEq

/-- Ascending enumeration of a pack set (`Array.from` of a JS `Set`; the
enumeration order is a reporting detail, fixed here to ascending). -/
def packList (s : Finset Nat) : List Nat :=
  s.sort (· ≤ ·)

/-- The progress computation of `getDownloadStatus`:
`Math.round((totalCompleted / totalRequested) * 100)` when anything was
requested, `0` otherwise, taken exactly over ℚ. `Math.round` rounds half
upward, which on non-negative input is `⌊x + 1/2⌋`, i.e. the integer
division `(200 c + r) / (2 r)`. -/
def progressPercent (totalCompleted totalRequested : Nat) : Nat :=
  if 0 < totalRequested then
    (200 * totalCompleted + totalRequested) / (2 * totalRequested)
  else 0

/-- Modelled from the spec: `round(100 * |completedPacks| / |requestedPacks|)`
over the rationals, rounding half up as `Math.round` does. Stated separately
from `progressPercent` (which transcribes the code) so the two can be
compared. -/
def specProgressPercent (c r : Nat) : Int :=
  ⌊(100 * (c : ℚ)) / (r : ℚ) + 1 / 2⌋

/-- The `switch (job.status)` message of `getDownloadStatus`. -/
def statusMessage (job : DownloadJob) : String :=
  let totalRequested := job.requestedPacks.card
  let totalCompleted := job.completedPacks.card
  let pct := progressPercent totalCompleted totalRequested
  match job.status with
  | DownloadJobStatus.in_progress =>
    "Download in progress: " ++ Nat.repr totalCompleted ++ "/" ++
      Nat.repr totalRequested ++ " packs completed (" ++ Nat.repr pct ++ "%)"
  | DownloadJobStatus.completed =>
    "Download completed: all " ++ Nat.repr totalRequested ++
      " packs downloaded successfully"
  | DownloadJobStatus.failed =>
    "Download failed: " ++ Nat.repr job.errors.length ++ " errors occurred"
  | DownloadJobStatus.partially_completed =>
    "Download partially completed: " ++ Nat.repr totalCompleted ++ "/" ++
      Nat.repr totalRequested ++ " packs downloaded, " ++
      Nat.repr job.failedPacks.card ++ " packs failed"

/-- `getDownloadStatus` from the status tool's logic module: look the job up;
an unknown id keeps the default snapshot with `status := failed` and a
message naming the id; a known job is projected read-only, `endTime` being
reported only once `status` left `in_progress`. -/
def getDownloadStatus (downloadJobs : List (String × DownloadJob))
    (job_id : String) : GetDownloadStatusToolResponse :=
  match downloadJobs.lookup job_id with
  | none =>
    { job_id := job_id
      status := DownloadJobStatus.failed
      completedPacks := []
      failedPacks := []
      progress := "0%"
      message := "Download job with ID " ++ job_id ++ " not found"
      errors := []
      startTime := none
      endTime := none }
  | some job =>
    let totalRequested := job.requestedPacks.card
    let totalCompleted := job.completedPacks.card
    let pct := progressPercent totalCompleted totalRequested
    { job_id := job_id
      status := job.status
      completedPacks := packList job.completedPacks
      failedPacks := packList job.failedPacks
      progress := Nat.repr pct ++ "% (" ++ Nat.repr totalCompleted ++ "/" ++
        Nat.repr totalRequested ++ ")"
      message := statusMessage job
      errors := job.errors
      startTime := some job.startTime
      endTime :=
        if job.status ≠ DownloadJobStatus.in_progress then job.endTime else none }

/-- A concrete, schema-valid request used by the concrete instances below. -/
def sampleParams : InitiateDownloadToolInput :=
  { host := "irc.example.com"
    port := 6667
    channel := "#test"
    bot := "bot1"
    packs := "1"
    download_path := "./downloads/"
    nickname := "MCPUser" }

/-- The outcome of initiating `sampleParams` with a fixed id and clock. -/
def sampleInit : Except McpError InitiateOutcome :=
  initiateDownload "job_1" "t0" [] ⟨[], []⟩ sampleParams

/-- The job record `sampleInit` registered. -/
def sampleJob : DownloadJob :=
  match sampleInit with
  | Except.ok o => o.job
  | Except.error _ => default

/-- A failed job reached through the code: `sampleJob` after a pack error. -/
def cJobF : DownloadJob :=
  runEvents sampleJob [XdccEvent.errored "boom" none]

/-- A job with four requested packs and one completed, reached through the
code: initiating with packs `"1-4"` and then one completion event for pack
`1`; its status is still `in_progress`. -/
def sampleJob4 : DownloadJob :=
  match initiateDownload "job_6" "t0" [] ⟨[], []⟩
      { sampleParams with packs := "1-4" } with
  | Except.ok o => runEvents o.job [XdccEvent.downloaded [1]]
  | Except.error _ => default

/-- The pool state after `sampleInit` acquired its connection. -/
def samplePool : PoolState :=
  ⟨[("irc.example.com:6667",
    ⟨"irc.example.com", 6667, "MCPUser", "./downloads/"⟩)], ["./downloads/"]⟩

/-- The job record `sampleInit` registers, written out literally. -/
def sampleOutcomeJob : DownloadJob :=
  { id := "job_1"
    host := "irc.example.com"
    port := 6667
    channel := "#test"
    bot := "bot1"
    requestedPacks := {1}
    completedPacks := ∅
    failedPacks := ∅
    errors := []
    startTime := "t0"
    endTime := none
    status := DownloadJobStatus.in_progress }

/-- The full outcome of `sampleInit`, written out literally. -/
def sampleOutcome : InitiateOutcome :=
  ⟨⟨"job_1", "Download started for 1 file(s)", DownloadJobStatus.in_progress⟩,
    sampleOutcomeJob, [("job_1", sampleOutcomeJob)], samplePool⟩

/-! ### Helper lemmas -/

theorem foldl_insert_eq_union (l : List Nat) (s : Finset Nat) :
    l.foldl (fun t n => insert n t) s = s ∪ l.toFinset := by
  induction l generalizing s with
  | nil => simp
  | cons a l ih =>
    simp [List.foldl_cons, ih, List.toFinset_cons, Finset.insert_union,
      Finset.union_insert]

theorem onDownloaded_completedPacks (success : List Nat) (job : DownloadJob) :
    (onDownloaded success job).completedPacks =
      job.completedPacks ∪ success.toFinset := by
  simp only [onDownloaded]
  split <;> simp [foldl_insert_eq_union]

theorem onDownloaded_status (success : List Nat) (job : DownloadJob) :
    (onDownloaded success job).status =
      if (job.completedPacks ∪ success.toFinset).card = job.requestedPacks.card
      then DownloadJobStatus.completed else job.status := by
  simp only [onDownloaded, foldl_insert_eq_union]
  split <;> simp_all

theorem applyEvent_requestedPacks (job : DownloadJob) (e : XdccEvent) :
    (applyEvent job e).requestedPacks = job.requestedPacks := by
  cases e with
  | downloaded success =>
    simp only [applyEvent, onDownloaded]
    split <;> rfl
  | downloading a b c => rfl
  | errored m st => rfl
  | startFailed m st => rfl

theorem applyEvent_failedPacks (job : DownloadJob) (e : XdccEvent) :
    (applyEvent job e).failedPacks = job.failedPacks := by
  cases e with
  | downloaded success =>
    simp only [applyEvent, onDownloaded]
    split <;> rfl
  | downloading a b c => rfl
  | errored m st => rfl
  | startFailed m st => rfl

theorem applyEvent_endTime (job : DownloadJob) (e : XdccEvent) :
    (applyEvent job e).endTime = job.endTime := by
  cases e with
  | downloaded success =>
    simp only [applyEvent, onDownloaded]
    split <;> rfl
  | downloading a b c => rfl
  | errored m st => rfl
  | startFailed m st => rfl

theorem applyEvent_completed_subset (job : DownloadJob) (e : XdccEvent) :
    job.completedPacks ⊆ (applyEvent job e).completedPacks := by
  cases e with
  | downloaded success =>
    rw [show applyEvent job (XdccEvent.downloaded success)
        = onDownloaded success job from rfl, onDownloaded_completedPacks]
    exact Finset.subset_union_left
  | downloading a b c => exact Finset.Subset.refl _
  | errored m st => exact Finset.Subset.refl _
  | startFailed m st => exact Finset.Subset.refl _

theorem runEvents_requestedPacks (job : DownloadJob) (es : List XdccEvent) :
    (runEvents job es).requestedPacks = job.requestedPacks := by
  induction es generalizing job with
  | nil => rfl
  | cons e es ih =>
    rw [runEvents, List.foldl_cons, ← runEvents, ih, applyEvent_requestedPacks]

theorem runEvents_failedPacks (job : DownloadJob) (es : List XdccEvent) :
    (runEvents job es).failedPacks = job.failedPacks := by
  induction es generalizing job with
  | nil => rfl
  | cons e es ih =>
    rw [runEvents, List.foldl_cons, ← runEvents, ih, applyEvent_failedPacks]

theorem runEvents_endTime (job : DownloadJob) (es : List XdccEvent) :
    (runEvents job es).endTime = job.endTime := by
  induction es generalizing job with
  | nil => rfl
  | cons e es ih =>
    rw [runEvents, List.foldl_cons, ← runEvents, ih, applyEvent_endTime]

theorem runEvents_completed_subset (job : DownloadJob) (es : List XdccEvent) :
    job.completedPacks ⊆ (runEvents job es).completedPacks := by
  induction es generalizing job with
  | nil => exact Finset.Subset.refl _
  | cons e es ih =>
    rw [runEvents, List.foldl_cons, ← runEvents]
    exact (applyEvent_completed_subset job e).trans (ih (applyEvent job e))

theorem runEvents_append (job : DownloadJob) (es es' : List XdccEvent) :
    runEvents job (es ++ es') = runEvents (runEvents job es) es' := by
  unfold runEvents
  exact List.foldl_append applyEvent job es es'

/-- If every success list delivered along the way stays inside
`requestedPacks`, the completed set stays inside `requestedPacks`. -/
theorem runEvents_completed_sub_requested (job : DownloadJob)
    (es : List XdccEvent)
    (hsub : job.completedPacks ⊆ job.requestedPacks)
    (hev : ∀ s, XdccEvent.downloaded s ∈ es → s.toFinset ⊆ job.requestedPacks) :
    (runEvents job es).completedPacks ⊆ (runEvents job es).requestedPacks := by
  rw [runEvents_requestedPacks]
  induction es generalizing job with
  | nil => exact hsub
  | cons e es ih =>
    rw [runEvents, List.foldl_cons, ← runEvents]
    have hreq := applyEvent_requestedPacks job e
    have hstep : (applyEvent job e).completedPacks ⊆ job.requestedPacks := by
      cases e with
      | downloaded success =>
        rw [show applyEvent job (XdccEvent.downloaded success)
            = onDownloaded success job from rfl, onDownloaded_completedPacks]
        exact Finset.union_subset hsub
          (hev success (List.mem_cons_self _ _))
      | downloading a b c => exact hsub
      | errored m st => exact hsub
      | startFailed m st => exact hsub
    have := ih (applyEvent job e) (by rw [hreq]; exact hstep)
      (fun s hs => by rw [hreq]; exact hev s (List.mem_cons_of_mem _ hs))
    rwa [hreq] at this

theorem lookup_none_filter_eq_nil (l : List (String × XdccConnection))
    (k : String) (h : l.lookup k = none) :
    l.filter (fun kv => kv.1 == k) = [] := by
  induction l with
  | nil => rfl
  | cons a l ih =>
    rw [List.lookup] at h
    cases hk : (k == a.1) with
    | true =>
      simp only [hk] at h
      exact absurd h (Option.some_ne_none _)
    | false =>
      simp only [hk] at h
      have hk' : (a.1 == k) = false := by
        simp only [beq_eq_false_iff_ne] at hk ⊢
        exact fun hEq => hk hEq.symm
      simp [List.filter_cons, hk', ih h]

theorem mem_trimList_subset (cs : List Char) : trimList cs ⊆ cs := by
  unfold trimList
  intro x hx
  rw [List.mem_reverse] at hx
  have hx2 := (cs.dropWhile isWs).reverse.dropWhile_sublist isWs |>.subset hx
  rw [List.mem_reverse] at hx2
  exact (cs.dropWhile_sublist isWs).subset hx2

theorem trimList_contains_false (cs : List Char) (c : Char)
    (h : cs.contains c = false) : (trimList cs).contains c = false := by
  by_contra hc
  rw [Bool.not_eq_false] at hc
  have hmem : c ∈ cs := mem_trimList_subset cs (List.elem_iff.mp hc)
  have h2 : cs.contains c = true := List.elem_iff.mpr hmem
  rw [h] at h2
  exact Bool.false_ne_true h2

theorem progressPercent_eq_spec (c r : Nat) (hr : 0 < r) :
    (progressPercent c r : Int) = specProgressPercent c r := by
  unfold progressPercent specProgressPercent
  rw [if_pos hr]
  have hrq : (r : ℚ) ≠ 0 := Nat.cast_ne_zero.mpr hr.ne'
  have hq : (100 * (c : ℚ)) / (r : ℚ) + 1 / 2
      = (((200 * c + r : ℕ) : ℤ) : ℚ) / ((2 * r : ℕ) : ℚ) := by
    push_cast
    field_simp
    ring
  rw [hq, Rat.floor_intCast_div_natCast]
  exact_mod_cast (Int.natCast_div (200 * c + r) (2 * r)).symm

/-! ### Claim theorems -/

/-- C1, counterexample: the claim that a terminal job is never re-opened is
false on the code. The job registered for pack `1` reaches the terminal
status `completed` after its pack downloads, yet a subsequently delivered
pack-error event overwrites its status to `failed`: the `error` handler sets
`status = 'failed'` unconditionally, with no terminal-state guard. -/
theorem C1_counterexample :
    sampleInit.toOption.map InitiateOutcome.job = some sampleJob ∧
    (runEvents sampleJob [XdccEvent.downloaded [1]]).status =
      DownloadJobStatus.completed ∧
    (runEvents sampleJob
      [XdccEvent.downloaded [1], XdccEvent.errored "late error" none]).status =
      DownloadJobStatus.failed := by
  decide

/-- C1 (amended): late events are not discarded. A pack-error event always
sets `status` to `failed` and appends to `errors`, even on a job already in a
terminal status; a pack-completion event whose success list brings the
completed count up to the requested count always sets `status` to
`completed`, even on a failed job; no event ever changes `endTime` (which the
code never sets at all). -/
theorem C1_terminal_not_stable (j : DownloadJob) (m : String) (st : Option String)
    (s : List Nat)
    (hcard : (j.completedPacks ∪ s.toFinset).card = j.requestedPacks.card) :
    (applyEvent j (XdccEvent.errored m st)).status = DownloadJobStatus.failed ∧
    (applyEvent j (XdccEvent.errored m st)).errors = j.errors ++ [⟨m, st⟩] ∧
    (applyEvent j (XdccEvent.errored m st)).endTime = j.endTime ∧
    (applyEvent j (XdccEvent.downloaded s)).status = DownloadJobStatus.completed ∧
    (applyEvent j (XdccEvent.downloaded s)).endTime = j.endTime := by
  refine ⟨rfl, rfl, rfl, ?_, applyEvent_endTime j _⟩
  rw [show applyEvent j (XdccEvent.downloaded s) = onDownloaded s j from rfl,
    onDownloaded_status, if_pos hcard]

/-- Witness for the amended C1: a failed job reached through the code is
re-opened to `completed` by a late completion event, and an error event on it
keeps `endTime` untouched. -/
theorem C1_terminal_not_stable_witness :
    (cJobF.completedPacks ∪ ([1] : List Nat).toFinset).card =
      cJobF.requestedPacks.card ∧
    ((applyEvent cJobF (XdccEvent.errored "late" none)).status =
        DownloadJobStatus.failed ∧
      (applyEvent cJobF (XdccEvent.errored "late" none)).errors =
        cJobF.errors ++ [⟨"late", none⟩] ∧
      (applyEvent cJobF (XdccEvent.errored "late" none)).endTime = cJobF.endTime ∧
      (applyEvent cJobF (XdccEvent.downloaded [1])).status =
        DownloadJobStatus.completed ∧
      (applyEvent cJobF (XdccEvent.downloaded [1])).endTime = cJobF.endTime) :=
  ⟨by decide, C1_terminal_not_stable cJobF "late" none [1] (by decide)⟩

/-- C2, counterexample: the claim that completions are intersected with
`requestedPacks` (and hence that `completedPacks ∪ failedPacks ⊆
requestedPacks`) is false on the code. The `downloaded` handler adds the
entire session-wide success list: for the job requesting only pack `1`, a
completion event carrying success list `[5]` makes `completedPacks = {5}`,
which is not a subset of `requestedPacks = {1}`, although the intersection of
the success list with `requestedPacks` is empty. -/
theorem C2_counterexample :
    sampleInit.toOption.map InitiateOutcome.job = some sampleJob ∧
    sampleJob.requestedPacks = ({1} : Finset Nat) ∧
    (runEvents sampleJob [XdccEvent.downloaded [5]]).completedPacks =
      ({5} : Finset Nat) ∧
    sampleJob.requestedPacks ∩ ([5] : List Nat).toFinset = ∅ ∧
    ¬ ((runEvents sampleJob [XdccEvent.downloaded [5]]).completedPacks ∪
        (runEvents sampleJob [XdccEvent.downloaded [5]]).failedPacks ⊆
        (runEvents sampleJob [XdccEvent.downloaded [5]]).requestedPacks) := by
  decide

/-- C2 (amended): `completedPacks` and `failedPacks` only grow over time
(`failedPacks` in fact never changes) and remain disjoint for jobs created by
the code (whose `failedPacks` is empty); a completion event adds the whole
delivered success list — not its intersection with `requestedPacks` — so
`completedPacks ∪ failedPacks ⊆ requestedPacks` holds only under the extra
assumption that every delivered success list stays inside `requestedPacks`. -/
theorem C2_packsets (j : DownloadJob) (es es' : List XdccEvent) (s : List Nat)
    (hfail : j.failedPacks = ∅)
    (hsub : j.completedPacks ⊆ j.requestedPacks)
    (hev : ∀ t, XdccEvent.downloaded t ∈ es → t.toFinset ⊆ j.requestedPacks) :
    (runEvents j es).completedPacks ⊆ (runEvents j (es ++ es')).completedPacks ∧
    (runEvents j es).failedPacks = j.failedPacks ∧
    Disjoint (runEvents j es).completedPacks (runEvents j es).failedPacks ∧
    (runEvents j es).completedPacks ∪ (runEvents j es).failedPacks ⊆
      (runEvents j es).requestedPacks ∧
    (applyEvent j (XdccEvent.downloaded s)).completedPacks =
      j.completedPacks ∪ s.toFinset := by
  refine ⟨?_, runEvents_failedPacks j es, ?_, ?_, onDownloaded_completedPacks s j⟩
  · rw [runEvents_append]
    exact runEvents_completed_subset _ es'
  · rw [runEvents_failedPacks, hfail]
    exact Finset.disjoint_empty_right _
  · rw [runEvents_failedPacks, hfail, Finset.union_empty]
    exact runEvents_completed_sub_requested j es hsub hev

/-- Witness for the amended C2 at the job registered for pack `1` and a
single completion event for pack `1`. -/
theorem C2_packsets_witness :
    sampleJob.failedPacks = ∅ ∧
    sampleJob.completedPacks ⊆ sampleJob.requestedPacks ∧
    (∀ t, XdccEvent.downloaded t ∈ [XdccEvent.downloaded [1]] →
      t.toFinset ⊆ sampleJob.requestedPacks) ∧
    ((runEvents sampleJob [XdccEvent.downloaded [1]]).completedPacks ⊆
        (runEvents sampleJob
          ([XdccEvent.downloaded [1]] ++ [XdccEvent.errored "boom" none])).completedPacks ∧
      (runEvents sampleJob [XdccEvent.downloaded [1]]).failedPacks =
        sampleJob.failedPacks ∧
      Disjoint (runEvents sampleJob [XdccEvent.downloaded [1]]).completedPacks
        (runEvents sampleJob [XdccEvent.downloaded [1]]).failedPacks ∧
      (runEvents sampleJob [XdccEvent.downloaded [1]]).completedPacks ∪
          (runEvents sampleJob [XdccEvent.downloaded [1]]).failedPacks ⊆
        (runEvents sampleJob [XdccEvent.downloaded [1]]).requestedPacks ∧
      (applyEvent sampleJob (XdccEvent.downloaded [1])).completedPacks =
        sampleJob.completedPacks ∪ ([1] : List Nat).toFinset) := by
  have hev : ∀ t, XdccEvent.downloaded t ∈ [XdccEvent.downloaded [1]] →
      t.toFinset ⊆ sampleJob.requestedPacks := by
    intro t ht
    simp only [List.mem_singleton, XdccEvent.downloaded.injEq] at ht
    subst ht
    decide
  exact ⟨by decide, by decide, hev,
    C2_packsets sampleJob [XdccEvent.downloaded [1]]
      [XdccEvent.errored "boom" none] [1] (by decide) (by decide) hev⟩

/-- C3: the claim is what the spec (and the job record's own `endTime` field,
which the status projector reads back) intends, but the code never assigns
`endTime` anywhere. Evaluated at the failing input — the job registered for
pack `1` — both transitions out of `in_progress` leave `endTime` unset
(`none`), and in general no event ever changes `endTime`. -/
theorem C3_endTime_never_set :
    sampleInit.toOption.map InitiateOutcome.job = some sampleJob ∧
    (runEvents sampleJob [XdccEvent.errored "connection refused" none]).status =
      DownloadJobStatus.failed ∧
    (runEvents sampleJob [XdccEvent.errored "connection refused" none]).endTime =
      none ∧
    (runEvents sampleJob [XdccEvent.downloaded [1]]).status =
      DownloadJobStatus.completed ∧
    (runEvents sampleJob [XdccEvent.downloaded [1]]).endTime = none ∧
    (∀ (j : DownloadJob) (e : XdccEvent), (applyEvent j e).endTime = j.endTime) :=
  ⟨by decide, by decide, by decide, by decide, by decide, applyEvent_endTime⟩

/-- C4: the pack range expander maps `"1-3,5,7-9"` to `{1,2,3,5,7,8,9}` and
`"2-1,abc,4"` to `{4}` (the backwards range and the non-numeric token are
silently dropped), and initiating with `"abc"` — whose expansion is empty —
fails with a `VALIDATION_ERROR` `McpError`. -/
theorem C4_expandPacks :
    expandPacks "1-3,5,7-9" = ({1, 2, 3, 5, 7, 8, 9} : Finset Nat) ∧
    expandPacks "2-1,abc,4" = ({4} : Finset Nat) ∧
    expandPacks "abc" = (∅ : Finset Nat) ∧
    initiateDownload "job_1" "t0" [] ⟨[], []⟩
        { sampleParams with packs := "abc" } =
      Except.error
        ⟨BaseErrorCode.VALIDATION_ERROR, "No valid pack numbers provided"⟩ := by
  decide

/-- C5: for every `job_id` absent from the registry, `get_download_status`
returns — without throwing — a snapshot with `status = failed`, a message
naming the unknown id, and empty progress fields: no completed packs, no
failed packs, `0%` progress and no errors. -/
theorem C5_unknown_job (jobs : List (String × DownloadJob)) (jid : String)
    (h : jobs.lookup jid = none) :
    getDownloadStatus jobs jid =
      { job_id := jid
        status := DownloadJobStatus.failed
        completedPacks := []
        failedPacks := []
        progress := "0%"
        message := "Download job with ID " ++ jid ++ " not found"
        errors := []
        startTime := none
        endTime := none } := by
  unfold getDownloadStatus
  rw [h]

/-- Witness for C5 at an empty registry and the id `job_doesnotexist`. -/
theorem C5_unknown_job_witness :
    ([] : List (String × DownloadJob)).lookup "job_doesnotexist" = none ∧
    getDownloadStatus [] "job_doesnotexist" =
      { job_id := "job_doesnotexist"
        status := DownloadJobStatus.failed
        completedPacks := []
        failedPacks := []
        progress := "0%"
        message := "Download job with ID job_doesnotexist not found"
        errors := []
        startTime := none
        endTime := none } :=
  ⟨rfl, C5_unknown_job [] "job_doesnotexist" rfl⟩

/-- C6: for every registered job the snapshot's progress string reports
`progressPercent`, which equals `round(100 * |completedPacks| /
|requestedPacks|)` (and is `0` when `requestedPacks` is empty), and an
in-progress job's message reads `completed/requested` between its fixed
pieces — in particular `1/4` for one of four packs. -/
theorem C6_progress_arith (jobs : List (String × DownloadJob)) (jid : String)
    (job : DownloadJob) (h : jobs.lookup jid = some job) :
    (getDownloadStatus jobs jid).progress =
      Nat.repr (progressPercent job.completedPacks.card job.requestedPacks.card)
        ++ "% (" ++ Nat.repr job.completedPacks.card ++ "/" ++
        Nat.repr job.requestedPacks.card ++ ")" ∧
    (0 < job.requestedPacks.card →
      (progressPercent job.completedPacks.card job.requestedPacks.card : Int) =
        specProgressPercent job.completedPacks.card job.requestedPacks.card) ∧
    (job.requestedPacks.card = 0 →
      progressPercent job.completedPacks.card job.requestedPacks.card = 0) ∧
    (job.status = DownloadJobStatus.in_progress →
      (getDownloadStatus jobs jid).message =
        "Download in progress: " ++ Nat.repr job.completedPacks.card ++ "/" ++
          Nat.repr job.requestedPacks.card ++ " packs completed (" ++
          Nat.repr (progressPercent job.completedPacks.card
            job.requestedPacks.card) ++ "%)") := by
  unfold getDownloadStatus
  rw [h]
  refine ⟨rfl, fun hr => progressPercent_eq_spec _ _ hr,
    fun hz => by simp [progressPercent, hz], fun hs => ?_⟩
  simp only [statusMessage, hs]

/-- Witness for C6: the four-pack job with one completion reports
`25% (1/4)` and an in-progress message containing `1/4`. -/
theorem C6_progress_arith_witness :
    ([("job_6", sampleJob4)].lookup "job_6" = some sampleJob4) ∧
    ((getDownloadStatus [("job_6", sampleJob4)] "job_6").progress =
        Nat.repr (progressPercent sampleJob4.completedPacks.card
          sampleJob4.requestedPacks.card) ++ "% (" ++
          Nat.repr sampleJob4.completedPacks.card ++ "/" ++
          Nat.repr sampleJob4.requestedPacks.card ++ ")" ∧
      (0 < sampleJob4.requestedPacks.card →
        (progressPercent sampleJob4.completedPacks.card
            sampleJob4.requestedPacks.card : Int) =
          specProgressPercent sampleJob4.completedPacks.card
            sampleJob4.requestedPacks.card) ∧
      (sampleJob4.requestedPacks.card = 0 →
        progressPercent sampleJob4.completedPacks.card
          sampleJob4.requestedPacks.card = 0) ∧
      (sampleJob4.status = DownloadJobStatus.in_progress →
        (getDownloadStatus [("job_6", sampleJob4)] "job_6").message =
          "Download in progress: " ++
            Nat.repr sampleJob4.completedPacks.card ++ "/" ++
            Nat.repr sampleJob4.requestedPacks.card ++ " packs completed (" ++
            Nat.repr (progressPercent sampleJob4.completedPacks.card
              sampleJob4.requestedPacks.card) ++ "%)")) ∧
    (getDownloadStatus [("job_6", sampleJob4)] "job_6").progress = "25% (1/4)" ∧
    (getDownloadStatus [("job_6", sampleJob4)] "job_6").message =
      "Download in progress: 1/4 packs completed (25%)" :=
  ⟨by decide, C6_progress_arith [("job_6", sampleJob4)] "job_6" sampleJob4
    (by decide), by decide, by decide⟩

/-- C7: acquiring the pooled connection is idempotent per `host:port` key.
When the key is not pooled yet, the first acquisition creates a connection
configured with the given nickname and path; a second acquisition with the
same host and port — even with a different nickname or download path —
returns that connection unchanged and leaves the whole state unchanged
(so the new nickname and path are ignored and no directory is touched), the
pool holds exactly one connection for the key after either call, and an
already-existing download directory is left as it is. -/
theorem C7_pool_idempotent (st : PoolState) (host : String) (port : Nat)
    (nick path nick' path' : String)
    (h : st.ircConnections.lookup (connectionKey host port) = none) :
    (getXdccConnection
        (getXdccConnection st host port nick path).2 host port nick' path').1 =
      (getXdccConnection st host port nick path).1 ∧
    (getXdccConnection
        (getXdccConnection st host port nick path).2 host port nick' path').2 =
      (getXdccConnection st host port nick path).2 ∧
    (getXdccConnection st host port nick path).1.nickname = nick ∧
    (getXdccConnection st host port nick path).1.path = path ∧
    poolCount (connectionKey host port)
      (getXdccConnection st host port nick path).2 = 1 ∧
    poolCount (connectionKey host port)
      (getXdccConnection
        (getXdccConnection st host port nick path).2 host port nick' path').2
      = 1 ∧
    (path ∈ st.dirs → (getXdccConnection st host port nick path).2.dirs =
      st.dirs) := by
  have hfilter :=
    lookup_none_filter_eq_nil st.ircConnections (connectionKey host port) h
  have hlook2 : ((connectionKey host port,
        (⟨host, port, nick, path⟩ : XdccConnection)) ::
        st.ircConnections).lookup (connectionKey host port) =
      some ⟨host, port, nick, path⟩ := by
    rw [List.lookup]
    simp
  simp only [getXdccConnection, h, hlook2, poolCount, List.filter_cons,
    beq_self_eq_true, if_true, hfilter]
  refine ⟨by trivial, by trivial, by trivial, by trivial, by trivial,
    by trivial, fun hp => by simp [hp]⟩

/-- Witness for C7: an empty pool with an already-existing download
directory, acquired twice for the same endpoint with different nicknames and
paths. -/
theorem C7_pool_idempotent_witness :
    (([] : List (String × XdccConnection)).lookup
      (connectionKey "irc.example.com" 6667) = none) ∧
    ((getXdccConnection
        (getXdccConnection ⟨[], ["./downloads/"]⟩ "irc.example.com" 6667
          "MCPUser" "./downloads/").2 "irc.example.com" 6667 "Other" "/tmp/dl").1 =
      (getXdccConnection ⟨[], ["./downloads/"]⟩ "irc.example.com" 6667
        "MCPUser" "./downloads/").1 ∧
    (getXdccConnection
        (getXdccConnection ⟨[], ["./downloads/"]⟩ "irc.example.com" 6667
          "MCPUser" "./downloads/").2 "irc.example.com" 6667 "Other" "/tmp/dl").2 =
      (getXdccConnection ⟨[], ["./downloads/"]⟩ "irc.example.com" 6667
        "MCPUser" "./downloads/").2 ∧
    (getXdccConnection ⟨[], ["./downloads/"]⟩ "irc.example.com" 6667
      "MCPUser" "./downloads/").1.nickname = "MCPUser" ∧
    (getXdccConnection ⟨[], ["./downloads/"]⟩ "irc.example.com" 6667
      "MCPUser" "./downloads/").1.path = "./downloads/" ∧
    poolCount (connectionKey "irc.example.com" 6667)
      (getXdccConnection ⟨[], ["./downloads/"]⟩ "irc.example.com" 6667
        "MCPUser" "./downloads/").2 = 1 ∧
    poolCount (connectionKey "irc.example.com" 6667)
      (getXdccConnection
        (getXdccConnection ⟨[], ["./downloads/"]⟩ "irc.example.com" 6667
          "MCPUser" "./downloads/").2 "irc.example.com" 6667 "Other" "/tmp/dl").2
      = 1 ∧
    ("./downloads/" ∈ (⟨[], ["./downloads/"]⟩ : PoolState).dirs →
      (getXdccConnection ⟨[], ["./downloads/"]⟩ "irc.example.com" 6667
        "MCPUser" "./downloads/").2.dirs =
        (⟨[], ["./downloads/"]⟩ : PoolState).dirs)) :=
  ⟨rfl, C7_pool_idempotent ⟨[], ["./downloads/"]⟩ "irc.example.com" 6667
    "MCPUser" "./downloads/" "Other" "/tmp/dl" rfl⟩

/-- C8: `initiateDownload` returns synchronously with `{job_id, message,
status = in_progress}` and an `in_progress` job already registered; if the
asynchronous transfer start later fails (the `download()` promise rejects),
the registered job transitions to `failed` with the causing error appended to
its log — the `.catch` handler is a total record update, nothing escapes the
asynchronous boundary. -/
theorem C8_fire_and_forget (jobId startTime : String)
    (jobs : List (String × DownloadJob)) (pool : PoolState)
    (params : InitiateDownloadToolInput) (out : InitiateOutcome)
    (h : initiateDownload jobId startTime jobs pool params = Except.ok out)
    (m : String) (st : Option String) :
    out.response.status = DownloadJobStatus.in_progress ∧
    out.response.job_id = jobId ∧
    out.job.status = DownloadJobStatus.in_progress ∧
    out.downloadJobs = (jobId, out.job) :: jobs ∧
    (applyEvent out.job (XdccEvent.startFailed m st)).status =
      DownloadJobStatus.failed ∧
    (applyEvent out.job (XdccEvent.startFailed m st)).errors =
      out.job.errors ++ [⟨m, st⟩] := by
  simp only [initiateDownload] at h
  split at h
  · exact Except.noConfusion h
  · injection h with h'
    subst h'
    exact ⟨rfl, rfl, rfl, rfl, rfl, rfl⟩

/-- Witness for C8 at the concrete request for pack `1`. -/
theorem C8_fire_and_forget_witness :
    initiateDownload "job_1" "t0" [] ⟨[], []⟩ sampleParams =
      Except.ok sampleOutcome ∧
    (sampleOutcome.response.status = DownloadJobStatus.in_progress ∧
      sampleOutcome.response.job_id = "job_1" ∧
      sampleOutcome.job.status = DownloadJobStatus.in_progress ∧
      sampleOutcome.downloadJobs = ("job_1", sampleOutcome.job) :: [] ∧
      (applyEvent sampleOutcome.job
        (XdccEvent.startFailed "request rejected" none)).status =
        DownloadJobStatus.failed ∧
      (applyEvent sampleOutcome.job
        (XdccEvent.startFailed "request rejected" none)).errors =
        sampleOutcome.job.errors ++ [⟨"request rejected", none⟩]) :=
  ⟨by decide, C8_fire_and_forget "job_1" "t0" [] ⟨[], []⟩ sampleParams
    sampleOutcome (by decide) "request rejected" none⟩

/-- C9: no operation ever adds to `failedPacks`. Every job the code registers
starts with `failedPacks = ∅`, no event handler touches the field, and hence
every status snapshot of an existing job reports `failedPacks = []`. -/
theorem C9_failedPacks_empty (jobId startTime : String)
    (jobs : List (String × DownloadJob)) (pool : PoolState)
    (params : InitiateDownloadToolInput) (out : InitiateOutcome)
    (h : initiateDownload jobId startTime jobs pool params = Except.ok out)
    (es : List XdccEvent) (jobs' : List (String × DownloadJob)) (qid : String)
    (hlook : jobs'.lookup qid = some (runEvents out.job es)) :
    (runEvents out.job es).failedPacks = ∅ ∧
    (getDownloadStatus jobs' qid).failedPacks = [] := by
  have hinit : out.job.failedPacks = ∅ := by
    simp only [initiateDownload] at h
    split at h
    · exact Except.noConfusion h
    · injection h with h'
      subst h'
      rfl
  have hfp : (runEvents out.job es).failedPacks = ∅ := by
    rw [runEvents_failedPacks, hinit]
  refine ⟨hfp, ?_⟩
  unfold getDownloadStatus
  rw [hlook]
  simp [packList, hfp, Finset.sort_empty]

/-- Witness for C9: the pack-`1` job after a pack error still reports
`failedPacks = []`. -/
theorem C9_failedPacks_empty_witness :
    initiateDownload "job_1" "t0" [] ⟨[], []⟩ sampleParams =
      Except.ok sampleOutcome ∧
    ([("job_1",
        runEvents sampleOutcome.job [XdccEvent.errored "boom" none])].lookup
      "job_1" =
      some (runEvents sampleOutcome.job [XdccEvent.errored "boom" none])) ∧
    ((runEvents sampleOutcome.job
        [XdccEvent.errored "boom" none]).failedPacks = ∅ ∧
      (getDownloadStatus
        [("job_1", runEvents sampleOutcome.job [XdccEvent.errored "boom" none])]
        "job_1").failedPacks = []) :=
  ⟨by decide, by decide,
    C9_failedPacks_empty "job_1" "t0" [] ⟨[], []⟩ sampleParams sampleOutcome
      (by decide) [XdccEvent.errored "boom" none]
      [("job_1", runEvents sampleOutcome.job [XdccEvent.errored "boom" none])]
      "job_1" (by decide)⟩

/-- C10: a dash-free token whose leading characters parse as a decimal
integer (after trimming, and possibly followed by non-numeric characters)
contributes that integer — `expandPacks "4abc" = {4}` — and only dash-free
tokens with no parseable numeric prefix are dropped as non-numeric. -/
theorem C10_numeric_prefix (str : String) (tok : List Char) (n : Nat)
    (hmem : tok ∈ splitOnChar ',' str.data)
    (hdash : tok.contains '-' = false)
    (hp : parseIntPrefix (trimList tok) = some n) :
    expandToken tok = [n] ∧
    n ∈ expandPacks str ∧
    (∀ tok' : List Char, tok'.contains '-' = false →
      parseIntPrefix (trimList tok') = none → expandToken tok' = []) ∧
    expandPacks "4abc" = ({4} : Finset Nat) := by
  have hdash' := trimList_contains_false tok '-' hdash
  have htok : expandToken tok = [n] := by
    simp only [expandToken, hdash', hp]
    rfl
  refine ⟨htok, ?_, ?_, by decide⟩
  · unfold expandPacks
    rw [List.mem_toFinset, List.mem_flatten]
    refine ⟨[n], ?_, List.mem_singleton_self n⟩
    rw [List.mem_map]
    exact ⟨tok, hmem, htok⟩
  · intro tok' hdash2 hp2
    have hdash2' := trimList_contains_false tok' '-' hdash2
    simp only [expandToken, hdash2', hp2]
    rfl

/-- Witness for C10 at the single-token pack string `"4abc"`. -/
theorem C10_numeric_prefix_witness :
    ("4abc".data ∈ splitOnChar ',' "4abc".data) ∧
    ("4abc".data.contains '-' = false) ∧
    (parseIntPrefix (trimList "4abc".data) = some 4) ∧
    (expandToken "4abc".data = [4] ∧
      4 ∈ expandPacks "4abc" ∧
      (∀ tok' : List Char, tok'.contains '-' = false →
        parseIntPrefix (trimList tok') = none → expandToken tok' = []) ∧
      expandPacks "4abc" = ({4} : Finset Nat)) :=
  ⟨by decide, by decide, by decide,
    C10_numeric_prefix "4abc" "4abc".data 4 (by decide) (by decide) (by decide)⟩

end XdccMcp
